import Mathlib

/-!
Auralia: the native version-query bridge

Verification development for `app/src/main/cpp/llama_jni.cpp`, whose whole
content is one `extern "C"` function:

    JNIEXPORT jstring JNICALL
    java_com_voiceassistant_model_LlamaNative_getLlamaVersion(JNIEnv* env, jobject /* this */) {
        std::string version = "llama version 0.1";  // Replace with actual llama call
        return env->NewStringUTF(version.c_str());
    }

The embedding passes the process state explicitly.  `jni.h` is not part of the
repository, so the environment handle is a parameter: a record holding the
`NewStringUTF` entry of the function table, acting on the state owned by the
managed runtime.  A `char` is a natural number below 256 and a `const char*` is
the buffer it points into, terminating NUL included.

The function is given three times, each on top of the one before: with the
storage of the local `std::string` granted; with the native heap in the state,
so that the constructor can throw `std::bad_alloc`; and as three atomic actions
per thread, run under an arbitrary schedule over a shared runtime, shared
statics, shared I/O and a shared heap.
-/

namespace LlamaJni

/-! ## C and C++ strings -/

/-- UTF-8 code units of one code point, the execution encoding of a narrow
string literal.  For a code point below 128 this is the code point itself. -/
def utf8Encode (c : Nat) : List Nat :=
  if c < 0x80 then [c]
  else if c < 0x800 then [0xC0 + c / 64, 0x80 + c % 64]
  else if c < 0x10000 then [0xE0 + c / 4096, 0x80 + c / 64 % 64, 0x80 + c % 64]
  else [0xF0 + c / 262144, 0x80 + c / 4096 % 64, 0x80 + c / 64 % 64, 0x80 + c % 64]

/-- Array of `char` that a narrow string literal denotes: the encoded characters
followed by the terminating NUL the compiler appends. -/
def stringLiteral (s : String) : List Nat :=
  (s.toList.map (fun ch => utf8Encode ch.toNat)).flatten ++ [0]

/-- Characters of the C string starting at a buffer: everything before the first
NUL.  This is what any consumer of a `const char*` reads. -/
def cstrChars (p : List Nat) : List Nat :=
  p.takeWhile (fun b => b != 0)

/-! ## Process state -/

/-- An object reference handed over by the managed runtime. -/
abbrev jobject := Nat

/-- Explicit process state.  `jvm` is whatever the managed runtime owns (its
heap, the pending exception); the other components are the native side. -/
structure World (J : Type) where
  /-- State owned by the managed runtime, reachable only through a `JNIEnv`. -/
  jvm : J
  /-- Objects with static storage duration (globals and statics). -/
  statics : List Int
  /-- Bytes written to files, sockets or the log so far. -/
  io : List Nat
  /-- Live `std::string` objects with automatic storage, innermost first; each
  is given by its characters. -/
  automatic : List (List Nat)

/-- Constructor `std::string(const char*)` for a local variable, once its storage
is there: the characters of the C string are copied into a new automatic
object.  `Process.construct` below is the constructor together with the
allocation that can fail. -/
def World.construct {J : Type} (p : List Nat) (w : World J) : World J :=
  { w with automatic := cstrChars p :: w.automatic }

/-- Member `c_str()` of the innermost local `std::string`: its characters with a
terminating NUL. -/
def World.c_str {J : Type} (w : World J) : List Nat :=
  w.automatic.headD [] ++ [0]

/-- Destructor of the innermost local `std::string`, run at scope exit. -/
def World.destroy {J : Type} (w : World J) : World J :=
  { w with automatic := w.automatic.tail }

/-! ## The environment handle -/

/-- The part of `JNIEnv` the bridge uses.  `NewStringUTF chars jvm` receives the
characters of the C string it is given and the runtime state; it yields the new
string reference, or `none` for `NULL`, and the runtime state afterwards. -/
structure JNIEnv (J S : Type) where
  NewStringUTF : List Nat → J → Option S × J

/-- Call `env->NewStringUTF(p)` in a world: the runtime reads the C string at
`p` and only the runtime-owned component of the world changes. -/
def JNIEnv.callNewStringUTF {J S : Type} (env : JNIEnv J S) (p : List Nat)
    (w : World J) : Option S × World J :=
  ((env.NewStringUTF (cstrChars p) w.jvm).1,
   { w with jvm := (env.NewStringUTF (cstrChars p) w.jvm).2 })

/-! ## The bridge function -/

/-- The function of `llama_jni.cpp`, statement by statement: construct the local
`version` from the literal, pass `version.c_str()` to `env->NewStringUTF`,
destroy `version` at scope exit and return what `NewStringUTF` returned.  The
receiver is unnamed in the source and never read.  This is the call with the
storage of `version` granted; the same function with the allocation explicit is
`java_com_voiceassistant_model_LlamaNative_getLlamaVersion_onHeap`, and
`getLlamaVersion_onHeap_of_storage` relates the two. -/
def java_com_voiceassistant_model_LlamaNative_getLlamaVersion {J S : Type}
    (env : JNIEnv J S) (_this : jobject) (w : World J) : Option S × World J :=
  let w1 := w.construct (stringLiteral "llama version 0.1")
  let r := env.callNewStringUTF w1.c_str w1
  (r.1, r.2.destroy)

/-- Contents of the local `version` right after its construction. -/
def versionContents : List Nat :=
  cstrChars (stringLiteral "llama version 0.1")

/-- Characters that `NewStringUTF` reads from `version.c_str()`. -/
def newStringUTFArgument : List Nat :=
  cstrChars (versionContents ++ [0])

/-! ## Text encodings of the managed runtime -/

/-- UTF-16 code units of a code point, the representation a runtime string
holds. -/
def utf16Encode (c : Nat) : List Nat :=
  if c < 0x10000 then [c]
  else [0xD800 + (c - 0x10000) / 1024, 0xDC00 + (c - 0x10000) % 1024]

/-- White space of the C locale (`isspace`): space, tab, line feed, vertical
tab, form feed, carriage return. -/
def isWhitespace (b : Nat) : Bool :=
  b == 32 || (9 ≤ b && b ≤ 13)

/-! ## Environments used to observe the bridge -/

/-- A recording runtime: its state is the list of texts handed to `NewStringUTF`
so far, and the reference it returns is the text itself. -/
def recordingEnv : JNIEnv (List (List Nat)) (List Nat) where
  NewStringUTF chars log := (some chars, log ++ [chars])

/-- A runtime with a bounded heap and a pending-exception flag. -/
structure BoundedRuntime where
  /-- Strings created so far; a reference is an index into this list. -/
  strings : List (List Nat)
  /-- Number of strings the heap can hold. -/
  capacity : Nat
  /-- Whether an `OutOfMemoryError` is pending. -/
  pendingException : Bool
deriving DecidableEq

/-- The `NewStringUTF` of the bounded runtime: it allocates while there is room
and otherwise returns `NULL` with an `OutOfMemoryError` pending, as the JNI
documentation of `NewStringUTF` allows. -/
def boundedEnv : JNIEnv BoundedRuntime Nat where
  NewStringUTF chars j :=
    if j.strings.length < j.capacity then
      (some j.strings.length, { j with strings := j.strings ++ [chars] })
    else
      (none, { j with pendingException := true })

/-- A world whose native side is empty. -/
def World.initial {J : Type} (j : J) : World J :=
  { jvm := j, statics := [], io := [], automatic := [] }

/-! ## Allocation

The definitions above take the storage of `version` as granted.  Here the native
heap is part of the state: the constructor of `version` asks the allocator for
storage unless the characters fit the small-string buffer, whose capacity `sso`
depends on the standard library and is a parameter. -/

/-- How a native call ends, as its caller sees it. -/
inductive Outcome (S : Type) where
  /-- Normal return of a string reference, `none` for `NULL`. -/
  | returned (value : Option S)
  /-- The exception `std::bad_alloc` left the function. -/
  | threwBadAlloc
deriving DecidableEq

/-- Process state with the native heap explicit. -/
structure Process (J : Type) where
  /-- Everything but the heap. -/
  world : World J
  /-- Bytes the native allocator can still hand out. -/
  heapFree : Nat

/-- Heap bytes a `std::string` of `n` characters occupies: none when the
characters fit the small-string buffer, else the characters and a NUL. -/
def stringStorage (sso n : Nat) : Nat :=
  if n ≤ sso then 0 else n + 1

/-- Constructor `std::string(const char*)` with its allocation: `none` when the
allocator cannot supply the storage, which is when `std::bad_alloc` is thrown. -/
def Process.construct {J : Type} (sso : Nat) (p : List Nat) (s : Process J) :
    Option (Process J) :=
  if stringStorage sso (cstrChars p).length ≤ s.heapFree then
    some { world := s.world.construct p,
           heapFree := s.heapFree - stringStorage sso (cstrChars p).length }
  else none

/-- Destructor of the innermost local `std::string`: its heap storage goes back
to the allocator. -/
def Process.destroy {J : Type} (sso : Nat) (s : Process J) : Process J :=
  { world := s.world.destroy,
    heapFree := s.heapFree + stringStorage sso (s.world.automatic.headD []).length }

/-- The function of `llama_jni.cpp` with the allocation of `version` explicit.
Line 12 either throws `std::bad_alloc`, and then nothing else happens, or
constructs `version`; line 13 calls `env->NewStringUTF(version.c_str())`,
destroys `version` and returns what `NewStringUTF` returned. -/
def java_com_voiceassistant_model_LlamaNative_getLlamaVersion_onHeap {J S : Type}
    (sso : Nat) (env : JNIEnv J S) (_this : jobject) (s : Process J) :
    Outcome S × Process J :=
  match s.construct sso (stringLiteral "llama version 0.1") with
  | none => (Outcome.threwBadAlloc, s)
  | some s1 =>
    let r := env.callNewStringUTF s1.world.c_str s1.world
    (Outcome.returned r.1, Process.destroy sso { s1 with world := r.2 })

/-! ## Sequences of calls -/

/-- One call of the bridge per receiver, in order, each starting in the state the
previous one left; the outcomes are collected in call order. -/
def callSequence {J S : Type} (sso : Nat) (env : JNIEnv J S) :
    List jobject → Process J → List (Outcome S) × Process J
  | [], s => ([], s)
  | this :: rest, s =>
    let r := java_com_voiceassistant_model_LlamaNative_getLlamaVersion_onHeap sso env this s
    let rs := callSequence sso env rest r.2
    (r.1 :: rs.1, rs.2)

/-- The environment's `NewStringUTF` applied `n` times in a row to one and the
same text, threading the runtime state. -/
def repeatNewStringUTF {J S : Type} (env : JNIEnv J S) (chars : List Nat) :
    Nat → J → List (Option S) × J
  | 0, j => ([], j)
  | n + 1, j =>
    let r := env.NewStringUTF chars j
    let rs := repeatNewStringUTF env chars n r.2
    (r.1 :: rs.1, rs.2)

/-! ## Concurrent calls

Several threads are inside the bridge at once.  Each has its own stack of
automatic objects; the runtime state, the statics, the I/O trace and the heap
are shared.  A schedule picks, step by step, the thread that runs next; a step
is one of the three actions of the function body, and `NewStringUTF` acts on the
runtime state atomically, as JNI requires of the runtime. -/

/-- Name under which the function is exported.  It is declared inside
`extern "C"`, so the symbol is the identifier as written in the source. -/
def exportedSymbol : String :=
  "java_com_voiceassistant_model_LlamaNative_getLlamaVersion"

/-- Lower-case hexadecimal digit. -/
def hexDigit (n : Nat) : Char :=
  if n < 10 then Char.ofNat (48 + n) else Char.ofNat (87 + n)

/-- Escape of one character in a JNI native method name: letters and digits stay,
a package separator becomes `_`, and `_`, `;`, `[` become `_1`, `_2`, `_3`; any
other character becomes `_0xxxx` for each of its UTF-16 code units. -/
def jniEscape (c : Char) : List Char :=
  if c.isAlphanum then [c]
  else if c = '.' ∨ c = '/' then ['_']
  else if c = '_' then ['_', '1']
  else if c = ';' then ['_', '2']
  else if c = '[' then ['_', '3']
  else (utf16Encode c.toNat).flatMap fun u =>
    ['_', '0', hexDigit (u / 4096 % 16), hexDigit (u / 256 % 16),
      hexDigit (u / 16 % 16), hexDigit (u % 16)]

/-- Mangled form of a class or method name. -/
def jniMangle (s : String) : List Char :=
  s.toList.flatMap jniEscape

/-- Short native method name the runtime looks up: `Java_`, the mangled
fully-qualified class name, `_`, the mangled method name. -/
def jniShortName (cls method : String) : String :=
  String.mk ("Java_".toList ++ jniMangle cls ++ ['_'] ++ jniMangle method)

/-- Long native method name, tried for overloaded methods: the short name, two
underscores and the mangled argument signature. -/
def jniLongName (cls method argSig : String) : String :=
  String.mk ((jniShortName cls method).toList ++ ['_', '_'] ++ jniMangle argSig)

/-! ## Lemmas on C strings and on the decoders -/

theorem cstrChars_append_nul (cs : List Nat) (h : 0 ∉ cs) :
    cstrChars (cs ++ [0]) = cs := by
  induction cs with
  | nil => rfl
  | cons c cs ih =>
    have hc : c ≠ 0 := fun e => h (by simp [e])
    have hcs : 0 ∉ cs := fun m => h (List.mem_cons_of_mem _ m)
    have hb : (c != 0) = true := by simp [hc]
    have ih2 := ih hcs
    unfold cstrChars at ih2 ⊢
    rw [List.cons_append, List.takeWhile_cons, hb, if_pos rfl, ih2]

theorem cstrChars_no_nul (p : List Nat) : 0 ∉ cstrChars p := by
  intro h
  have := List.mem_takeWhile_imp h
  simp at this

/-- Constructing a `std::string` from a C string and reading its `c_str()` back
gives the characters of the `std::string`, whatever the C string was. -/
theorem cstrChars_c_str_construct {J : Type} (p : List Nat) (w : World J) :
    cstrChars (w.construct p).c_str = cstrChars p := by
  simp only [World.construct, World.c_str, List.headD_cons]
  exact cstrChars_append_nul _ (cstrChars_no_nul p)

theorem newStringUTFArgument_eq_versionContents :
    newStringUTFArgument = versionContents :=
  cstrChars_append_nul _ (cstrChars_no_nul _)

/-- The bridge, with its local bookkeeping carried out: one `NewStringUTF` call
on `newStringUTFArgument`, and a world that differs from the initial one in the
runtime-owned component only. -/
theorem getLlamaVersion_eq {J S : Type} (env : JNIEnv J S) (this : jobject)
    (w : World J) :
    java_com_voiceassistant_model_LlamaNative_getLlamaVersion env this w =
      ((env.NewStringUTF newStringUTFArgument w.jvm).1,
       { w with jvm := (env.NewStringUTF newStringUTFArgument w.jvm).2 }) := by
  have h : cstrChars (w.construct (stringLiteral "llama version 0.1")).c_str =
      newStringUTFArgument := by
    rw [cstrChars_c_str_construct, newStringUTFArgument_eq_versionContents]
    rfl
  simp only [java_com_voiceassistant_model_LlamaNative_getLlamaVersion,
    JNIEnv.callNewStringUTF, h]
  rfl

/-- The bridge with its allocation, bookkeeping carried out: it throws exactly
when the heap cannot supply the storage of `version`, and otherwise makes one
`NewStringUTF` call on `newStringUTFArgument`, gives the storage back and
changes the runtime-owned component only. -/
theorem getLlamaVersion_onHeap_eq {J S : Type} (sso : Nat) (env : JNIEnv J S)
    (this : jobject) (s : Process J) :
    java_com_voiceassistant_model_LlamaNative_getLlamaVersion_onHeap sso env this s =
      if stringStorage sso 17 ≤ s.heapFree then
        (Outcome.returned (env.NewStringUTF newStringUTFArgument s.world.jvm).1,
         { s with world :=
            { s.world with jvm := (env.NewStringUTF newStringUTFArgument s.world.jvm).2 } })
      else (Outcome.threwBadAlloc, s) := by
  have hlen : (cstrChars (stringLiteral "llama version 0.1")).length = 17 := by decide
  have harg : cstrChars (s.world.construct (stringLiteral "llama version 0.1")).c_str =
      newStringUTFArgument := by
    rw [cstrChars_c_str_construct, newStringUTFArgument_eq_versionContents]
    rfl
  unfold java_com_voiceassistant_model_LlamaNative_getLlamaVersion_onHeap Process.construct
  rw [hlen]
  by_cases h : stringStorage sso 17 ≤ s.heapFree
  · simp only [if_pos h, JNIEnv.callNewStringUTF, harg, Process.destroy]
    simp only [World.construct, World.destroy, List.headD_cons, List.tail_cons, hlen,
      Nat.sub_add_cancel h]
  · simp only [if_neg h]

/-- With storage available, the bridge with allocation is the bridge. -/
theorem getLlamaVersion_onHeap_of_storage {J S : Type} (sso : Nat) (env : JNIEnv J S)
    (this : jobject) (s : Process J) (h : stringStorage sso 17 ≤ s.heapFree) :
    java_com_voiceassistant_model_LlamaNative_getLlamaVersion_onHeap sso env this s =
      (Outcome.returned
        (java_com_voiceassistant_model_LlamaNative_getLlamaVersion env this s.world).1,
       { s with world :=
          (java_com_voiceassistant_model_LlamaNative_getLlamaVersion env this s.world).2 }) := by
  rw [getLlamaVersion_onHeap_eq, if_pos h, getLlamaVersion_eq]

theorem callSequence_eq {J S : Type} (sso : Nat) (env : JNIEnv J S)
    (receivers : List jobject) (s : Process J) :
    callSequence sso env receivers s =
      if stringStorage sso 17 ≤ s.heapFree then
        ((repeatNewStringUTF env newStringUTFArgument receivers.length s.world.jvm).1.map
            Outcome.returned,
         { s with world :=
            { s.world with jvm :=
              (repeatNewStringUTF env newStringUTFArgument receivers.length s.world.jvm).2 } })
      else (List.replicate receivers.length Outcome.threwBadAlloc, s) := by
  induction receivers generalizing s with
  | nil =>
    by_cases h : stringStorage sso 17 ≤ s.heapFree
    · simp only [callSequence, if_pos h, List.length_nil, repeatNewStringUTF, List.map_nil]
    · simp only [callSequence, if_neg h, List.length_nil, List.replicate_zero]
  | cons this rest ih =>
    by_cases h : stringStorage sso 17 ≤ s.heapFree
    · simp only [callSequence, getLlamaVersion_onHeap_eq, ih, if_pos h, List.length_cons,
        repeatNewStringUTF, List.map_cons]
    · simp only [callSequence, getLlamaVersion_onHeap_eq, ih, if_neg h, List.length_cons,
        List.replicate_succ]

theorem repeatNewStringUTF_recordingEnv (chars : List Nat) (n : Nat)
    (log : List (List Nat)) :
    repeatNewStringUTF recordingEnv chars n log =
      (List.replicate n (some chars), log ++ List.replicate n chars) := by
  induction n generalizing log with
  | zero => simp [repeatNewStringUTF]
  | succ n ih =>
    have hstep : recordingEnv.NewStringUTF chars log = (some chars, log ++ [chars]) := rfl
    simp only [repeatNewStringUTF, hstep, ih, List.replicate_succ]
    simp

/-! ## Lemmas on schedules -/

/-- C1: for every environment handle, every receiver and every world, the value
the bridge returns is what `NewStringUTF` yields on exactly the characters of
"llama version 0.1"; a recording runtime sees this one text and nothing else.
The text has 17 characters and neither its first nor its last is white space. -/
theorem getLlamaVersion_text_is_version_string {J S : Type} (env : JNIEnv J S)
    (this : jobject) (w : World J) (r : World (List (List Nat))) :
    (java_com_voiceassistant_model_LlamaNative_getLlamaVersion env this w).1 =
      (env.NewStringUTF ("llama version 0.1".toList.map Char.toNat) w.jvm).1 ∧
    (java_com_voiceassistant_model_LlamaNative_getLlamaVersion recordingEnv this r).1 =
      some ("llama version 0.1".toList.map Char.toNat) ∧
    (java_com_voiceassistant_model_LlamaNative_getLlamaVersion recordingEnv this r).2.jvm =
      r.jvm ++ ["llama version 0.1".toList.map Char.toNat] ∧
    newStringUTFArgument = "llama version 0.1".toList.map Char.toNat ∧
    newStringUTFArgument.length = 17 ∧
    newStringUTFArgument.head?.map isWhitespace = some false ∧
    newStringUTFArgument.getLast?.map isWhitespace = some false := by
  have harg : newStringUTFArgument = "llama version 0.1".toList.map Char.toNat := by
    decide
  refine ⟨?_, ?_, ?_, harg, by decide, by decide, by decide⟩
  · rw [getLlamaVersion_eq, harg]
  · rw [getLlamaVersion_eq, harg]; rfl
  · rw [getLlamaVersion_eq, harg]; rfl

/-- C2, as stated, fails: with a runtime that has room for two strings, three
calls in a row return two references and then `NULL`, so the results are not
identical and the third depends on the two that preceded it; the same call made
first returns a reference. -/
theorem getLlamaVersion_third_call_differs :
    (callSequence 22 boundedEnv [5, 6, 7]
        { world := World.initial { strings := [], capacity := 2, pendingException := false },
          heapFree := 0 }).1 =
      [Outcome.returned (some 0), Outcome.returned (some 1), Outcome.returned none] ∧
    (callSequence 22 boundedEnv [7]
        { world := World.initial { strings := [], capacity := 2, pendingException := false },
          heapFree := 0 }).1 =
      [Outcome.returned (some 0)] := by
  decide

/-- C2, amended: N calls made one after the other either all throw
`std::bad_alloc`, when the heap cannot supply the storage of `version`, or are
exactly N `NewStringUTF` calls on one and the same text, whose results they
return in order.  Statics, I/O, automatic objects and the free heap after the
sequence are those before it, so the function keeps nothing a later call could
read; what a later call can observe is the runtime state `NewStringUTF` left.
With the recording runtime all N results are the version text. -/
theorem getLlamaVersion_sequence_hands_identical_text {J S : Type} (sso : Nat)
    (env : JNIEnv J S) (receivers : List jobject) (s : Process J)
    (r : Process (List (List Nat))) :
    callSequence sso env receivers s =
      (if stringStorage sso 17 ≤ s.heapFree then
        ((repeatNewStringUTF env newStringUTFArgument receivers.length s.world.jvm).1.map
            Outcome.returned,
         { s with world :=
            { s.world with jvm :=
              (repeatNewStringUTF env newStringUTFArgument receivers.length s.world.jvm).2 } })
      else (List.replicate receivers.length Outcome.threwBadAlloc, s)) ∧
    (callSequence sso env receivers s).2.world.statics = s.world.statics ∧
    (callSequence sso env receivers s).2.world.io = s.world.io ∧
    (callSequence sso env receivers s).2.world.automatic = s.world.automatic ∧
    (callSequence sso env receivers s).2.heapFree = s.heapFree ∧
    callSequence sso recordingEnv receivers r =
      (if stringStorage sso 17 ≤ r.heapFree then
        (List.replicate receivers.length (Outcome.returned (some newStringUTFArgument)),
         { r with world :=
            { r.world with jvm :=
              r.world.jvm ++ List.replicate receivers.length newStringUTFArgument } })
      else (List.replicate receivers.length Outcome.threwBadAlloc, r)) := by
  refine ⟨callSequence_eq sso env receivers s, ?_, ?_, ?_, ?_, ?_⟩
  · rw [callSequence_eq]; split <;> rfl
  · rw [callSequence_eq]; split <;> rfl
  · rw [callSequence_eq]; split <;> rfl
  · rw [callSequence_eq]; split <;> rfl
  · rw [callSequence_eq, repeatNewStringUTF_recordingEnv]
    simp only [List.map_replicate]

/-- C3, as stated, fails: with an environment whose `NewStringUTF` cannot
construct the string, the bridge returns `NULL` and leaves the exception
pending. -/
theorem getLlamaVersion_null_when_NewStringUTF_fails :
    java_com_voiceassistant_model_LlamaNative_getLlamaVersion boundedEnv 0
        (World.initial { strings := [], capacity := 0, pendingException := false }) =
      (none, World.initial { strings := [], capacity := 0, pendingException := true }) := by
  rfl

/-- C3, amended: the bridge returns a non-null string exactly when `version` can
be constructed (its 17 characters fit the small-string buffer, or the heap
supplies 18 bytes) and the environment's `NewStringUTF` succeeds on the version
text.  When the construction fails the bridge throws `std::bad_alloc`, calls
nothing and changes nothing; otherwise it returns exactly what `NewStringUTF`
returns, `NULL` included, and leaves the runtime as that call left it. -/
theorem getLlamaVersion_failure_modes {J S : Type} (sso : Nat) (env : JNIEnv J S)
    (this : jobject) (s : Process J) :
    java_com_voiceassistant_model_LlamaNative_getLlamaVersion_onHeap sso env this s =
      (if stringStorage sso 17 ≤ s.heapFree then
        (Outcome.returned (env.NewStringUTF newStringUTFArgument s.world.jvm).1,
         { s with world :=
            { s.world with jvm := (env.NewStringUTF newStringUTFArgument s.world.jvm).2 } })
      else (Outcome.threwBadAlloc, s)) ∧
    stringStorage sso 17 = (if 17 ≤ sso then 0 else 18) ∧
    ((java_com_voiceassistant_model_LlamaNative_getLlamaVersion_onHeap sso env this s).1 =
        Outcome.threwBadAlloc ↔ sso < 17 ∧ s.heapFree < 18) ∧
    (∀ v : S,
      (java_com_voiceassistant_model_LlamaNative_getLlamaVersion_onHeap sso env this s).1 =
          Outcome.returned (some v) ↔
        (17 ≤ sso ∨ 18 ≤ s.heapFree) ∧
          (env.NewStringUTF newStringUTFArgument s.world.jvm).1 = some v) := by
  have hst : stringStorage sso 17 = (if 17 ≤ sso then 0 else 18) := rfl
  have hle : stringStorage sso 17 ≤ s.heapFree ↔ (17 ≤ sso ∨ 18 ≤ s.heapFree) := by
    rw [hst]; split <;> omega
  refine ⟨getLlamaVersion_onHeap_eq sso env this s, hst, ?_, ?_⟩
  · rw [getLlamaVersion_onHeap_eq]
    by_cases h : stringStorage sso 17 ≤ s.heapFree
    · have h2 := hle.mp h
      simp only [if_pos h, reduceCtorEq, false_iff]
      omega
    · have h2 := fun x => h (hle.mpr x)
      simp only [if_neg h, true_iff]
      omega
  · intro v
    rw [getLlamaVersion_onHeap_eq]
    by_cases h : stringStorage sso 17 ≤ s.heapFree
    · simp only [if_pos h, Outcome.returned.injEq, hle.mp h, true_and]
    · have h2 := fun x => h (hle.mpr x)
      simp only [if_neg h, reduceCtorEq, false_iff]
      exact fun x => h2 x.1

/-- C4: the name the JNI convention derives for method `getLlamaVersion` of class
`com.voiceassistant.model.LlamaNative` starts with a capital `J`; the exported
symbol starts with a small `j` and is neither the short nor the long name,
although everything after the first character agrees with the short name. -/
theorem exportedSymbol_differs_from_jni_name :
    jniShortName "com.voiceassistant.model.LlamaNative" "getLlamaVersion" =
      "Java_com_voiceassistant_model_LlamaNative_getLlamaVersion" ∧
    exportedSymbol ≠ jniShortName "com.voiceassistant.model.LlamaNative" "getLlamaVersion" ∧
    exportedSymbol ≠ jniLongName "com.voiceassistant.model.LlamaNative" "getLlamaVersion" "" ∧
    exportedSymbol.toList.head? = some 'j' ∧
    (jniShortName "com.voiceassistant.model.LlamaNative" "getLlamaVersion").toList.head? =
      some 'J' ∧
    exportedSymbol.toList.tail =
      (jniShortName "com.voiceassistant.model.LlamaNative" "getLlamaVersion").toList.tail := by
  decide

/-- C5: with the same environment and the same world, any two receivers give the
same returned value and the same final world. -/
theorem getLlamaVersion_ignores_receiver {J S : Type} (env : JNIEnv J S)
    (this1 this2 : jobject) (w : World J) :
    java_com_voiceassistant_model_LlamaNative_getLlamaVersion env this1 w =
      java_com_voiceassistant_model_LlamaNative_getLlamaVersion env this2 w := by
  rw [getLlamaVersion_eq, getLlamaVersion_eq]

/-- C6: a call changes the world only in the component owned by the managed
runtime, and there only as the one `NewStringUTF` call on the version text
does: statics and I/O are untouched, and the automatic `std::string` that
exists during the call is gone on return. -/
theorem getLlamaVersion_frame {J S : Type} (env : JNIEnv J S) (this : jobject)
    (w : World J) :
    (java_com_voiceassistant_model_LlamaNative_getLlamaVersion env this w).2.statics =
      w.statics ∧
    (java_com_voiceassistant_model_LlamaNative_getLlamaVersion env this w).2.io = w.io ∧
    (java_com_voiceassistant_model_LlamaNative_getLlamaVersion env this w).2.automatic =
      w.automatic ∧
    (java_com_voiceassistant_model_LlamaNative_getLlamaVersion env this w).2.jvm =
      (env.NewStringUTF newStringUTFArgument w.jvm).2 ∧
    (w.construct (stringLiteral "llama version 0.1")).automatic =
      versionContents :: w.automatic ∧
    (w.construct (stringLiteral "llama version 0.1")).destroy = w := by
  rw [getLlamaVersion_eq]
  exact ⟨rfl, rfl, rfl, rfl, rfl, rfl⟩

end LlamaJni
